import Mathlib

/-!
Verification of the PolyType example scripts.

The repository holds three small Python scripts:
* `dist/examples/example.py` : `calculate_sum`, `process_list` and a
  `Calculator` accumulator class;
* `examples/advanced_example.py` : a `DataProcessor` class holding a list of
  integers, a `processed` flag, a `process_data` method doubling positive
  entries and a `get_statistics` method computing a total/count/average/max
  summary;
* `examples/gui_example.py` : a Tkinter calculator whose `calculate` handler
  evaluates the display string under a blanket exception guard.

Mutation of `self` is embedded by explicit state passing: a Python method
that mutates the object and returns a value becomes a Lean function from the
state to a pair of the new state and the returned value.  Python's `eval`
(an external builtin) is a parameter `ev : String → Except String Int`: an
`Except.error` value stands for a raised exception, whose payload `calculate`
never inspects.  Python's true division on integers is embedded as exact
division in `ℚ`.
-/

namespace PolyType

/-! ## dist/examples/example.py -/

def calculate_sum (a b : Int) : Int := a + b

/-- `process_list(numbers)`: sorts the caller's list in place, then returns
its sum.  The first component is the list object after the call. -/
def process_list (numbers : List Int) : List Int × Int :=
  let sorted := numbers.mergeSort (fun a b => decide (a ≤ b))
  (sorted, sorted.sum)

structure Calculator where
  value : Int
deriving DecidableEq

def Calculator.init (initial_value : Int) : Calculator :=
  { value := initial_value }

def Calculator.add (c : Calculator) (amount : Int) : Calculator × Int :=
  let v := c.value + amount
  ({ value := v }, v)

def Calculator.get_value (c : Calculator) : Int := c.value

/-- Running a sequence of `add` calls, keeping only the final state. -/
def Calculator.runAdds (c : Calculator) (amounts : List Int) : Calculator :=
  amounts.foldl (fun c a => (c.add a).1) c

/-! ## examples/advanced_example.py -/

structure DataProcessor where
  name : String
  data : List Int
  processed : Bool
deriving DecidableEq

def DataProcessor.init (name : String) : DataProcessor :=
  { name := name, data := [], processed := false }

def DataProcessor.add_item (p : DataProcessor) (item : Int) : DataProcessor :=
  { p with data := p.data ++ [item] }

/-- `process_data`: empty data returns `[]` at once (leaving `processed`
untouched); otherwise the loop appends `item * 2` for each positive `item`,
and `processed` is set to `True`. -/
def DataProcessor.process_data (p : DataProcessor) : DataProcessor × List Int :=
  if p.data = [] then (p, [])
  else
    let result := p.data.foldl (fun acc item => if item > 0 then acc ++ [item * 2] else acc) []
    ({ p with processed := true }, result)

/-- The dict returned by `get_statistics`. -/
structure Statistics where
  total : Int
  count : Nat
  average : ℚ
  max : Int
deriving DecidableEq

/-- `max(l)` guarded by `if l else 0`: the maximum of a non-empty list, `0`
on the empty list. -/
def listMaxD : List Int → Int
  | [] => 0
  | x :: xs => xs.foldl max x

def DataProcessor.get_statistics (p : DataProcessor) : DataProcessor × Statistics :=
  let p1 := if p.processed then p else (p.process_data).1
  let total := p1.data.sum
  let count := p1.data.length
  let average : ℚ := if count > 0 then (total : ℚ) / (count : ℚ) else 0
  (p1, { total := total, count := count, average := average, max := listMaxD p1.data })

/-- The method calls a client can make on a `DataProcessor`. -/
inductive Op where
  | addItem (item : Int)
  | procData
  | getStats
deriving DecidableEq

def runOp (p : DataProcessor) : Op → DataProcessor
  | Op.addItem i => p.add_item i
  | Op.procData => (p.process_data).1
  | Op.getStats => (p.get_statistics).1

def runOps (p : DataProcessor) (ops : List Op) : DataProcessor :=
  ops.foldl runOp p

/-- `ranNonempty p ops` holds when some `process_data` or `get_statistics`
call in `ops` runs at a state whose data list is non-empty. -/
def ranNonempty : DataProcessor → List Op → Bool
  | _, [] => false
  | p, op :: ops =>
      (match op with
        | Op.procData => decide (p.data ≠ [])
        | Op.getStats => decide (p.data ≠ [])
        | Op.addItem _ => false)
      || ranNonempty (runOp p op) ops

/-! ## examples/gui_example.py -/

structure GUIState where
  display : String
  dialogs : List (String × String)
deriving DecidableEq

def GUIState.init : GUIState :=
  { display := "", dialogs := [] }

def GUIState.number_click (s : GUIState) (num : Nat) : GUIState :=
  { s with display := s.display ++ toString num }

def GUIState.operation_click (s : GUIState) (op : String) : GUIState :=
  { s with display := s.display ++ " " ++ op ++ " " }

/-- `calculate`: evaluate the display string; on success replace the display
with `str(result)`, on any exception show the generic error dialog and leave
the display alone. -/
def GUIState.calculate (ev : String → Except String Int) (s : GUIState) : GUIState :=
  match ev s.display with
  | Except.ok r => { s with display := toString r }
  | Except.error _ => { s with dialogs := s.dialogs ++ [("Error", "Invalid expression")] }

def GUIState.clear (s : GUIState) : GUIState :=
  { s with display := "" }

/-! ## Helper lemmas -/

lemma foldl_double_pos (l : List Int) (acc : List Int) :
    l.foldl (fun acc item => if item > 0 then acc ++ [item * 2] else acc) acc
      = acc ++ (l.filter (fun x => decide (x > 0))).map (fun x => x * 2) := by
  induction l generalizing acc with
  | nil => simp
  | cons x xs ih =>
    by_cases hx : x > 0 <;>
      simp [List.foldl_cons, hx, ih, List.filter_cons]

lemma process_data_snd (p : DataProcessor) :
    (p.process_data).2
      = (p.data.filter (fun x => decide (x > 0))).map (fun x => x * 2) := by
  unfold DataProcessor.process_data
  by_cases h : p.data = []
  · simp [h]
  · simp [h, foldl_double_pos]

lemma process_data_fst_data (p : DataProcessor) :
    ((p.process_data).1).data = p.data := by
  unfold DataProcessor.process_data
  by_cases h : p.data = [] <;> simp [h]

lemma le_foldl_max (x : Int) (xs : List Int) : x ≤ xs.foldl max x := by
  induction xs generalizing x with
  | nil => exact le_refl x
  | cons y ys ih => exact le_trans (le_max_left x y) (ih (max x y))

lemma foldl_max_mem (x : Int) (xs : List Int) :
    xs.foldl max x = x ∨ xs.foldl max x ∈ xs := by
  induction xs generalizing x with
  | nil => exact Or.inl rfl
  | cons y ys ih =>
    rcases ih (max x y) with h | h
    · rcases max_choice x y with hm | hm
      · exact Or.inl (by rw [List.foldl_cons, h, hm])
      · exact Or.inr (by rw [List.foldl_cons, h, hm]; exact List.mem_cons_self y ys)
    · exact Or.inr (List.mem_cons_of_mem y h)

lemma mem_le_foldl_max (x : Int) (xs : List Int) :
    ∀ z ∈ xs, z ≤ xs.foldl max x := by
  induction xs generalizing x with
  | nil => intro z hz; cases hz
  | cons y ys ih =>
    intro z hz
    rcases List.mem_cons.mp hz with rfl | hz
    · exact le_trans (le_max_right x z) (le_foldl_max (max x z) ys)
    · exact ih (max x y) z hz

lemma listMaxD_mem (ds : List Int) (h : ds ≠ []) : listMaxD ds ∈ ds := by
  cases ds with
  | nil => exact absurd rfl h
  | cons x xs =>
    rcases foldl_max_mem x xs with h1 | h1
    · rw [listMaxD, h1]; exact List.mem_cons_self x xs
    · exact List.mem_cons_of_mem x (by rw [listMaxD]; exact h1)

lemma listMaxD_le (ds : List Int) : ∀ z ∈ ds, z ≤ listMaxD ds := by
  cases ds with
  | nil => intro z hz; cases hz
  | cons x xs =>
    intro z hz
    rcases List.mem_cons.mp hz with rfl | hz
    · exact le_foldl_max z xs
    · exact mem_le_foldl_max x xs z hz

lemma runOp_processed (p : DataProcessor) (op : Op) :
    (runOp p op).processed
      = (p.processed
          || (match op with
              | Op.procData => decide (p.data ≠ [])
              | Op.getStats => decide (p.data ≠ [])
              | Op.addItem _ => false)) := by
  cases op with
  | addItem i => simp [runOp, DataProcessor.add_item]
  | procData =>
    by_cases h : p.data = [] <;>
      simp [runOp, DataProcessor.process_data, h]
  | getStats =>
    by_cases hp : p.processed <;> by_cases h : p.data = [] <;>
      simp [runOp, DataProcessor.get_statistics, DataProcessor.process_data, hp, h]

lemma runOps_processed (ops : List Op) (p : DataProcessor) :
    (runOps p ops).processed = (p.processed || ranNonempty p ops) := by
  induction ops generalizing p with
  | nil => simp [runOps, ranNonempty]
  | cons op ops ih =>
    have h1 : runOps p (op :: ops) = runOps (runOp p op) ops := rfl
    rw [h1, ih (runOp p op), runOp_processed]
    cases op <;> simp [ranNonempty, Bool.or_assoc]

/-! ## Claims -/

/-- C1: `process_data` returns exactly the list of doubled positive entries of
the data list, in order, and returns the empty list on an empty data list. -/
theorem c1_process_data_doubles_positives (p : DataProcessor) :
    (p.process_data).2
        = (p.data.filter (fun x => decide (x > 0))).map (fun x => x * 2)
      ∧ (p.data = [] → (p.process_data).2 = []) := by
  refine ⟨process_data_snd p, fun h => ?_⟩
  rw [process_data_snd p, h]
  rfl

/-- Witness for C1 at a concrete processor with empty data. -/
theorem c1_witness :
    ((DataProcessor.init ("w1")).process_data).2 = [] :=
  (c1_process_data_doubles_positives (DataProcessor.init ("w1"))).2 rfl

/-- C2: `get_statistics` returns the sum as `total`, the length as `count`,
`total / count` (0 when the count is 0) as `average`, and the maximum element
(0 when the data is empty) as `max`. -/
theorem c2_get_statistics_summary (p : DataProcessor) :
    (p.get_statistics).2.total = p.data.sum
      ∧ (p.get_statistics).2.count = p.data.length
      ∧ (p.get_statistics).2.average
          = (if p.data.length > 0 then (p.data.sum : ℚ) / (p.data.length : ℚ) else 0)
      ∧ (p.data ≠ [] →
           (p.get_statistics).2.max ∈ p.data
             ∧ ∀ z ∈ p.data, z ≤ (p.get_statistics).2.max)
      ∧ (p.data = [] → (p.get_statistics).2.max = 0) := by
  have hd : ((p.get_statistics).1).data = p.data := by
    unfold DataProcessor.get_statistics
    by_cases hp : p.processed <;> simp [hp, process_data_fst_data]
  have hmax : (p.get_statistics).2.max = listMaxD p.data := by
    unfold DataProcessor.get_statistics
    by_cases hp : p.processed <;> simp [hp, process_data_fst_data]
  have htc : (p.get_statistics).2.total = p.data.sum
      ∧ (p.get_statistics).2.count = p.data.length := by
    unfold DataProcessor.get_statistics
    by_cases hp : p.processed <;>
      exact ⟨by simp [hp, process_data_fst_data], by simp [hp, process_data_fst_data]⟩
  refine ⟨htc.1, htc.2, ?_, ?_, ?_⟩
  · unfold DataProcessor.get_statistics
    by_cases hp : p.processed <;> simp [hp, process_data_fst_data]
  · intro h
    rw [hmax]
    exact ⟨listMaxD_mem p.data h, listMaxD_le p.data⟩
  · intro h
    rw [hmax, h]
    rfl

/-- Witness for C2: the `max` clauses at a processor with data `[3, 1]` and at
one with empty data. -/
theorem c2_witness :
    (((DataProcessor.init ("w2")).add_item 3 |>.add_item 1).get_statistics).2.max
        ∈ ((DataProcessor.init ("w2")).add_item 3 |>.add_item 1).data
      ∧ ((DataProcessor.init ("w2e")).get_statistics).2.max = 0 :=
  ⟨((c2_get_statistics_summary ((DataProcessor.init ("w2")).add_item 3 |>.add_item 1)).2.2.2.1
      (by decide)).1,
   (c2_get_statistics_summary (DataProcessor.init ("w2e"))).2.2.2.2 rfl⟩

/-- C3 counterexample: after `add_item(1)` and `process_data()`, the flag is
`True` although `get_statistics` (the summary computation) never ran, so the
flag does not track whether the summary has been computed. -/
theorem c3_counterexample :
    ¬ (((runOps (DataProcessor.init ("p")) [Op.addItem 1, Op.procData]).processed = true)
        ↔ Op.getStats ∈ [Op.addItem 1, Op.procData]) := by
  decide

/-- C3 (amended): for every reachable `DataProcessor` state, `processed` is
`True` iff some `process_data` call — direct, or made by `get_statistics` —
has run while the data list was non-empty. -/
theorem c3_processed_flag_amended (name : String) (ops : List Op) :
    (runOps (DataProcessor.init name) ops).processed
      = ranNonempty (DataProcessor.init name) ops := by
  rw [runOps_processed]
  simp [DataProcessor.init]

/-- C4: after `Calculator(v)` and a sequence of `add` calls, `get_value`
returns `v` plus the sum of the added amounts. -/
theorem c4_calculator_accumulates (v : Int) (amounts : List Int) :
    ((Calculator.init v).runAdds amounts).get_value = v + amounts.sum := by
  induction amounts generalizing v with
  | nil => simp [Calculator.init, Calculator.runAdds, Calculator.get_value]
  | cons a as ih =>
    have h1 : (Calculator.init v).runAdds (a :: as)
        = (Calculator.init (v + a)).runAdds as := rfl
    rw [h1, ih (v + a), List.sum_cons]
    ring

/-- C5: `process_list` returns the arithmetic sum of its argument: summing the
sorted list equals summing the original list. -/
theorem c5_process_list_sum (ns : List Int) :
    (process_list ns).2 = ns.sum := by
  unfold process_list
  exact List.Perm.sum_eq (List.mergeSort_perm ns (fun a b => decide (a ≤ b)))

/-- C6: `calculate` appends the one generic dialog `("Error", "Invalid
expression")` exactly when evaluation fails, whatever the exception was, and
appends nothing when evaluation succeeds. -/
theorem c6_calculate_blanket_guard (ev : String → Except String Int) (s : GUIState) :
    (GUIState.calculate ev s).dialogs
      = s.dialogs
          ++ (match ev s.display with
              | Except.ok _ => []
              | Except.error _ => [("Error", "Invalid expression")]) := by
  unfold GUIState.calculate
  cases ev s.display <;> simp

/-- C7: the list returned by `process_data` has length equal to the number of
strictly positive entries of the data list. -/
theorem c7_process_data_length (p : DataProcessor) :
    (p.process_data).2.length = p.data.countP (fun x => decide (x > 0)) := by
  rw [process_data_snd p, List.length_map, ← List.countP_eq_length_filter]

/-- C8: `process_list` mutates its argument: the caller's list afterwards is
the ascending sorted permutation of the original contents, and is not in
general the original list. -/
theorem c8_process_list_mutates (ns : List Int) :
    ((process_list ns).1).Perm ns
      ∧ List.Sorted (fun a b => a ≤ b) (process_list ns).1
      ∧ (process_list [2, 1]).1 ≠ [2, 1] := by
  have hsorted : ∀ ms : List Int, List.Sorted (fun a b => a ≤ b) (process_list ms).1 := by
    intro ms
    have h := @List.sorted_mergeSort Int
      (fun a b : Int => decide (a ≤ b))
      (fun a b c hab hbc => by
        simp only [decide_eq_true_eq] at hab hbc ⊢
        exact le_trans hab hbc)
      (fun a b => by
        simp only [Bool.or_eq_true, decide_eq_true_eq]
        exact le_total a b)
      ms
    exact h.imp (fun hab => by simpa using hab)
  refine ⟨List.mergeSort_perm ns (fun a b => decide (a ≤ b)), hsorted ns, ?_⟩
  intro heq
  have h2 := hsorted [2, 1]
  rw [heq] at h2
  have h3 := (List.sorted_cons.mp h2).1 1 (by simp)
  omega

/-- C9: `calculate` leaves the display unchanged when evaluation fails, and
replaces it with the string form of the result when evaluation succeeds. -/
theorem c9_calculate_display (ev : String → Except String Int) (s : GUIState) :
    (GUIState.calculate ev s).display
      = (match ev s.display with
          | Except.ok r => toString r
          | Except.error _ => s.display) := by
  unfold GUIState.calculate
  cases ev s.display <;> simp

/-- C10: on a processor whose data list is empty, `get_statistics` returns the
summary with total 0, count 0, average 0 and max 0 (division and maximum are
guarded, so the embedding is total here). -/
theorem c10_empty_statistics (p : DataProcessor) (h : p.data = []) :
    (p.get_statistics).2 = { total := 0, count := 0, average := 0, max := 0 } := by
  unfold DataProcessor.get_statistics
  by_cases hp : p.processed <;>
    simp [hp, DataProcessor.process_data, h, listMaxD]

/-- Witness for C10 at a freshly constructed processor. -/
theorem c10_witness :
    ((DataProcessor.init ("w10")).get_statistics).2
      = { total := 0, count := 0, average := 0, max := 0 } :=
  c10_empty_statistics (DataProcessor.init ("w10")) rfl

end PolyType
